import Mathlib

/-! Shallow embedding of the divide-and-conquer-over-ZMQ utilities
(fuel/utils/zmq.py) and of the cross-process logging utilities
(fuel/utils/logging.py), together with theorems about their behaviour.

External socket operations (pyzmq) are modelled abstractly: a blocking
receive consumes the next element of a list of inbound wire messages,
send operations are recorded as events in a trace, and potentially
infinite while-loops take an explicit fuel argument. -/

namespace FuelSpec

/-- Errno value of an interrupted system call, errno.EINTR. -/
def EINTR : Nat := 4

/-- Errno value of zmq.EAGAIN, raised by a non-blocking receive that finds
no message available. -/
def EAGAIN : Nat := 11

/-- Outcome of one underlying call attempted by uninterruptible: a normal
return, a zmq.ZMQError carrying an errno, or any other exception. -/
inductive CallOutcome (α : Type) where
  | ok (v : α)
  | zmqError (eno : Nat)
  | otherError (e : Nat)
deriving Repr, DecidableEq

/-- Result of running uninterruptible under bounded fuel: a value returned
(together with how many calls to f were made), an exception re-raised
(together with how many calls were made), or still retrying when the fuel
ran out. -/
inductive URes (α : Type) where
  | returns (v : α) (calls : Nat)
  | raisesZmq (eno : Nat) (calls : Nat)
  | raisesOther (e : Nat) (calls : Nat)
  | spinning
deriving Repr, DecidableEq

/-- Embedding of fuel.utils.zmq.uninterruptible, while-True loop body: call
f; on zmq.ZMQError whose errno is EINTR continue the loop; on any other
zmq.ZMQError re-raise; other exceptions are not caught at all and also
propagate.  The successive behaviours of f are abstracted as a function
from the call index to that call outcome; k is the index of the next call
and fuel bounds the number of loop iterations. -/
def uninterruptibleAux (f : Nat → CallOutcome α) : Nat → Nat → URes α
  | _, 0 => URes.spinning
  | k, fuel + 1 =>
    match f k with
    | CallOutcome.ok v => URes.returns v (k + 1)
    | CallOutcome.zmqError eno =>
        if eno = EINTR then uninterruptibleAux f (k + 1) fuel
        else URes.raisesZmq eno (k + 1)
    | CallOutcome.otherError e => URes.raisesOther e (k + 1)

/-- Embedding of fuel.utils.zmq.uninterruptible, started from the first
call. -/
def uninterruptible (f : Nat → CallOutcome α) (fuel : Nat) : URes α :=
  uninterruptibleAux f 0 fuel

/-- The synchronization marker, the byte string HELLO. -/
def HELLO : List Nat := [72, 69, 76, 76, 79]

/-- Wire-level events emitted by the ventilator work loop: a raw send on
the socket connected to the sink, or a user-level send of one produced
batch on the socket bound for workers. -/
inductive VentEvent (τ : Type) where
  | sinkSend (payload : List Nat)
  | workerSend (batch : τ)
deriving Repr, DecidableEq

/-- Body of the for-loop of DivideAndConquerVentilator.work_loop: one
user-level send per batch yielded by produce, in production order. -/
def ventSendAll : List τ → List (VentEvent τ)
  | [] => []
  | b :: rest => VentEvent.workerSend b :: ventSendAll rest

/-- Embedding of DivideAndConquerVentilator.work_loop: first a raw send of
the marker b HELLO on the sink socket, then the for-loop over produce. -/
def ventilator_work_loop (produced : List τ) : List (VentEvent τ) :=
  VentEvent.sinkSend HELLO :: ventSendAll produced

/-- Abstract behaviour of a concrete DivideAndConquerSink subclass: the
done predicate over the sink state, the user recv method (which may update
the state, for instance counting messages, and returns the received
object), and the user process method. -/
structure SinkSpec (σ : Type) where
  done : σ → Bool
  recvFn : σ → List Nat → σ × List Nat
  processFn : σ → List Nat → σ

/-- Events observable in a run of the sink work loop: the raw receive of
the synchronization packet, a user-level receive, and a call to process
with the object returned by the user-level receive. -/
inductive SinkEvent where
  | recvRaw (payload : List Nat)
  | recvMsg (payload : List Nat)
  | processCall (payload : List Nat)
deriving Repr, DecidableEq

/-- Termination status of the sink work loop: the done predicate became
true, the assert on the synchronization packet failed, the loop blocked on
a receive with no further inbound messages, or the modelling fuel ran
out. -/
inductive SinkOutcome (σ : Type) where
  | finished (s : σ)
  | assertionError (s : σ)
  | blocked (s : σ)
  | outOfFuel (s : σ)

/-- Embedding of the while-loop of DivideAndConquerSink.work_loop: while
not done, process one object returned by the user recv method. -/
def sinkLoop (P : SinkSpec σ) : Nat → σ → List (List Nat) → SinkOutcome σ × List SinkEvent
  | 0, s, _ => (SinkOutcome.outOfFuel s, [])
  | fuel + 1, s, msgs =>
    if P.done s then (SinkOutcome.finished s, [])
    else
      match msgs with
      | [] => (SinkOutcome.blocked s, [])
      | m :: rest =>
        let sx := P.recvFn s m
        let r := sinkLoop P fuel (P.processFn sx.1 sx.2) rest
        (r.1, SinkEvent.recvMsg m :: SinkEvent.processCall sx.2 :: r.2)

/-- Embedding of DivideAndConquerSink.work_loop: a raw receive of the
synchronization packet, the assert that it equals b HELLO, then the
while-loop over the remaining inbound messages. -/
def sink_work_loop (P : SinkSpec σ) (fuel : Nat) (s : σ) (msgs : List (List Nat)) :
    SinkOutcome σ × List SinkEvent :=
  match msgs with
  | [] => (SinkOutcome.blocked s, [])
  | m :: rest =>
    if m = HELLO then
      let r := sinkLoop P fuel s rest
      (r.1, SinkEvent.recvRaw m :: r.2)
    else (SinkOutcome.assertionError s, [SinkEvent.recvRaw m])

/-- Number of raw receives of the synchronization packet in a sink trace. -/
def countRaw (evs : List SinkEvent) : Nat :=
  evs.countP fun e =>
    match e with
    | SinkEvent.recvRaw _ => true
    | _ => false

/-- Python exception values that the embedded code can raise. -/
inductive PyError where
  | valueError (msg : String)
  | attributeError (msg : String)
deriving Repr, DecidableEq

/-- The error raised by DivideAndConquerBase.verify_sockets when the
sockets have not been initialized; the design document names this
condition IllegalStateError and the code realises it as a ValueError. -/
def illegalStateError : PyError :=
  PyError.valueError "initialize_sockets() must be called before run()"

/-- Embedding of DivideAndConquerBase.verify_sockets: raise when the
sockets_done flag is still false, return normally otherwise. -/
def verify_sockets (socketsDone : Bool) : Option PyError :=
  if socketsDone = false then some illegalStateError else none

/-- Abstract behaviour of one role object as far as run is concerned:
whether initialize_sockets has run (which sets sockets_done and stores the
context), and whether each overridable stage of the try-block raises an
exception when invoked. -/
structure RoleBehavior where
  socketsDone : Bool
  contextSet : Bool
  setupRaises : Bool
  workLoopRaises : Bool
  finalizeRaises : Bool
deriving Repr, DecidableEq

/-- Events of one execution of DivideAndConquerBase.run, in order: the
debug calls, the successful return of verify_sockets, the invocation of
each hook (recorded even when that hook then raises), the except-handler,
and the destruction of the messaging context. -/
inductive RunEvent where
  | debugSetup
  | verifyOk
  | setupHook
  | debugStart
  | workLoopRun
  | finalizeHook
  | exceptionHandled
  | debugTeardown
  | teardownHook
  | debugShutdown
  | contextDestroy
deriving Repr, DecidableEq

/-- How run terminates: a normal return (every exception of the try-block
was swallowed by the except-handler), or an AttributeError escaping from
the finally-block because self.context was never assigned. -/
inductive RunOutcome where
  | normal
  | attributeError
deriving Repr, DecidableEq

/-- Embedding of the try-block of DivideAndConquerBase.run: debug SETUP,
verify_sockets, setup, debug START, work_loop, finalize; the first stage
that raises aborts the rest of the block.  Returns the events that
happened and whether an exception was raised. -/
def runTryBody (b : RoleBehavior) : List RunEvent × Bool :=
  if (verify_sockets b.socketsDone).isSome then
    ([RunEvent.debugSetup], true)
  else if b.setupRaises then
    ([RunEvent.debugSetup, RunEvent.verifyOk, RunEvent.setupHook], true)
  else if b.workLoopRaises then
    ([RunEvent.debugSetup, RunEvent.verifyOk, RunEvent.setupHook,
      RunEvent.debugStart, RunEvent.workLoopRun], true)
  else
    ([RunEvent.debugSetup, RunEvent.verifyOk, RunEvent.setupHook,
      RunEvent.debugStart, RunEvent.workLoopRun, RunEvent.finalizeHook],
     b.finalizeRaises)

/-- Embedding of DivideAndConquerBase.run: the try-block, the
except-handler on any exception (handle_exception, which logs and does not
re-raise), then the finally-block: debug TEARDOWN, teardown, debug
SHUTDOWN, and self.context.destroy, which itself raises an AttributeError
when initialize_sockets never stored a context. -/
def run (b : RoleBehavior) : List RunEvent × RunOutcome :=
  let t := runTryBody b
  let evs := if t.2 then t.1 ++ [RunEvent.exceptionHandled] else t.1
  let evs := evs ++ [RunEvent.debugTeardown, RunEvent.teardownHook, RunEvent.debugShutdown]
  if b.contextSet then (evs ++ [RunEvent.contextDestroy], RunOutcome.normal)
  else (evs, RunOutcome.attributeError)

/-- Endpoint specification accepted by bind_to_addr_port_or_range: a
fully-qualified address string, a bare port number, or a two-element port
range. -/
inductive AddrSpec where
  | addr (s : String)
  | port (n : Nat)
  | range (lo hi : Nat)
deriving Repr, DecidableEq

/-- A Python value passed positionally into the addr slot of pyzmq
Socket.bind_to_random_port: either an address string or (after the
argument misalignment) a bare integer. -/
inductive PyVal where
  | str (s : String)
  | int (n : Nat)
deriving Repr, DecidableEq

/-- Embedding of fuel.utils.zmq.from_port_or_addr: a string is returned
unchanged, a port number is joined to the default address with a colon. -/
def from_port_or_addr (x : PyVal) (default_addr : String) : String :=
  match x with
  | PyVal.str s => s
  | PyVal.int n => default_addr ++ ":" ++ toString n

/-- The socket call issued by bind_to_addr_port_or_range: a plain bind on
an endpoint string, or a bind_to_random_port call with the positional
arguments it actually receives (addr, min_port, max_port, max_tries). -/
inductive SockCall where
  | bindCall (endpoint : String)
  | randomBindCall (addrArg : PyVal) (minPort maxPort maxTries : Nat)
deriving Repr, DecidableEq

/-- Result of the bind: a bound port, a ZMQBindError after the retry
budget, a ValueError (from random.randrange on an empty interval, or from
int() on an unparsable port field), or a re-raised zmq.ZMQError with
errno EINVAL from binding an endpoint that names no transport. -/
inductive BindResult where
  | bound (port : Nat)
  | zmqBindError
  | valueErrorRaised
  | einvalRaised
deriving Repr, DecidableEq

/-- Model of random.randrange lo hi fed by one abstract draw: some port in
the half-open interval, or none (ValueError) when the interval is empty. -/
def randrange (lo hi : Nat) (draw : Nat) : Option Nat :=
  if lo < hi then some (lo + draw % (hi - lo)) else none

/-- Model of pyzmq Socket.bind_to_random_port addr min_port max_port
max_tries: up to max_tries times, draw a port with randrange min_port
max_port and bind the endpoint rendered from addr and the port; a busy
port (EADDRINUSE) is retried, an endpoint whose addr slot is not an
address string fails with EINVAL and is re-raised; ZMQBindError when the
tries are exhausted.  The used predicate tells which ports are busy and
draw enumerates the successive random draws. -/
def bind_to_random_port (used : Nat → Bool) (draw : Nat → Nat)
    (addr : PyVal) (minPort maxPort : Nat) : Nat → Nat → BindResult
  | _, 0 => BindResult.zmqBindError
  | i, tries + 1 =>
    match randrange minPort maxPort (draw i) with
    | none => BindResult.valueErrorRaised
    | some p =>
      match addr with
      | PyVal.int _ => BindResult.einvalRaised
      | PyVal.str _ =>
        if used p then bind_to_random_port used draw addr minPort maxPort (i + 1) tries
        else BindResult.bound p

/-- Port parsed by int(addr.split(colon)[-1]) in the string branch of
bind_to_addr_port_or_range. -/
def parsePort (s : String) : Option Nat :=
  (s.splitOn ":").getLast? >>= String.toNat?

/-- Embedding of fuel.utils.zmq.bind_to_addr_port_or_range, returning the
socket call it issues.  In the range branch the source calls
socket.bind_to_random_port(min_port, max_port, max_retries), so lo lands
in the addr slot, hi in the min_port slot, max_retries in the max_port
slot, and max_tries keeps its pyzmq default of 100. -/
def bind_calls (spec : AddrSpec) (default_addr : String) (max_retries : Nat) : SockCall :=
  match spec with
  | AddrSpec.range lo hi => SockCall.randomBindCall (PyVal.int lo) hi max_retries 100
  | AddrSpec.addr s => SockCall.bindCall (from_port_or_addr (PyVal.str s) default_addr)
  | AddrSpec.port n => SockCall.bindCall (from_port_or_addr (PyVal.int n) default_addr)

/-- Embedding of fuel.utils.zmq.bind_to_addr_port_or_range, returning its
result: the range branch delegates to bind_to_random_port with the
misaligned positional arguments; the address branch binds and returns the
port parsed from the last colon-separated field; the port branch binds
and returns the port itself. -/
def bind_to_addr_port_or_range (used : Nat → Bool) (draw : Nat → Nat)
    (spec : AddrSpec) (default_addr : String) (max_retries : Nat) : BindResult :=
  match spec with
  | AddrSpec.range lo hi =>
      bind_to_random_port used draw (PyVal.int lo) hi max_retries 0 100
  | AddrSpec.addr s =>
      match parsePort s with
      | some p => BindResult.bound p
      | none => BindResult.valueErrorRaised
  | AddrSpec.port n => BindResult.bound n

/-- A log record as seen by the monitor loop: its severity and an
abstract payload identifying its content. -/
structure LogRecordM where
  levelno : Nat
  payload : Nat
deriving Repr, DecidableEq

/-- What one non-blocking receive in zmq_log_and_monitor yields: a record,
or a zmq.ZMQError carrying an errno (EAGAIN when no message is
available). -/
inductive PollEvent where
  | msg (r : LogRecordM)
  | zmqErr (eno : Nat)
deriving Repr, DecidableEq

/-- How the monitor loop of zmq_log_and_monitor ends: the while-condition
became false (no tracked process alive), SubprocessFailure was raised, a
zmq.ZMQError with an errno other than EAGAIN was re-raised, or the
modelling fuel ran out while the loop was still polling. -/
inductive MonitorOutcome where
  | allDead
  | subprocessFailure
  | zmqRaised (eno : Nat)
  | outOfFuel
deriving Repr, DecidableEq

/-- Embedding of the while-loop of fuel.utils.logging.zmq_log_and_monitor:
while the processes collection is empty or some tracked process is alive
(liveCond, evaluated at each iteration), poll the socket (polls, indexed
by iteration); an EAGAIN error continues the loop, another errno is
re-raised; a received record is first handed to logger.handle (appended to
the handled list) and then, when its severity reaches the threshold,
SubprocessFailure is raised.  Returns the outcome and the records handled
locally, in order. -/
def monitorLoop (threshold : Nat) (liveCond : Nat → Bool) (polls : Nat → PollEvent) :
    Nat → Nat → List LogRecordM → MonitorOutcome × List LogRecordM
  | 0, _, handled => (MonitorOutcome.outOfFuel, handled)
  | fuel + 1, i, handled =>
    if liveCond i = false then (MonitorOutcome.allDead, handled)
    else
      match polls i with
      | PollEvent.zmqErr eno =>
        if eno = EAGAIN then monitorLoop threshold liveCond polls fuel (i + 1) handled
        else (MonitorOutcome.zmqRaised eno, handled)
      | PollEvent.msg r =>
        if threshold ≤ r.levelno then (MonitorOutcome.subprocessFailure, handled ++ [r])
        else monitorLoop threshold liveCond polls fuel (i + 1) (handled ++ [r])

/-- Embedding of fuel.utils.logging.zmq_log_and_monitor, started at the
first iteration with nothing handled yet. -/
def zmq_log_and_monitor (threshold : Nat) (liveCond : Nat → Bool)
    (polls : Nat → PollEvent) (fuel : Nat) : MonitorOutcome × List LogRecordM :=
  monitorLoop threshold liveCond polls fuel 0 []

/-- A multiprocessing process handle as the manager sees it: an identifier
and whether is_alive() currently holds. -/
structure ProcHandle where
  pid : Nat
  alive : Bool
deriving Repr, DecidableEq

/-- Effect of Process.terminate on a handle. -/
def terminate (p : ProcHandle) : ProcHandle := { p with alive := false }

/-- Embedding of LocalhostDivideAndConquerManager.cleanup: walk the
recorded process handles, call terminate on each one whose is_alive()
returns true.  Returns the updated handles and the identifiers of the
handles that received a terminate call, in order. -/
def cleanup : List ProcHandle → List ProcHandle × List Nat
  | [] => ([], [])
  | p :: rest =>
    let r := cleanup rest
    if p.alive then (terminate p :: r.1, p.pid :: r.2) else (p :: r.1, r.2)

/-- Effect of self.sink_process.join() when it returns normally: the sink
process has terminated, so the handle carrying the sink identifier is no
longer alive. -/
def joinSink (ps : List ProcHandle) (sinkPid : Nat) : List ProcHandle :=
  ps.map fun p => if p.pid = sinkPid then { p with alive := false } else p

/-- Embedding of LocalhostDivideAndConquerManager.wait: join on the sink
process inside a try whose finally-block calls cleanup, so cleanup runs
whether the join returns normally or raises.  Returns the final handles,
the identifiers terminated by cleanup, and whether the join error
propagates after the finally-block. -/
def waitManager (joinFails : Bool) (ps : List ProcHandle) (sinkPid : Nat) :
    List ProcHandle × List Nat × Bool :=
  if joinFails then
    let r := cleanup ps
    (r.1, r.2, true)
  else
    let r := cleanup (joinSink ps sinkPid)
    (r.1, r.2, false)

/-- An exc_info triple: exception type, exception value, traceback object
(or none). -/
structure ExcInfo where
  etype : Nat
  evalue : Nat
  traceback : Option Nat
deriving Repr, DecidableEq

/-- A log record as ZMQLoggingHandler.emit sees it: severity, the optional
exc_info triple, and the optional cached exception text. -/
structure LogRecordE where
  levelno : Nat
  exc_text : Option String
  exc_info : Option ExcInfo
deriving Repr, DecidableEq

/-- Embedding of ZMQLoggingHandler.emit: when the record carries exc_info,
cache the text rendered by the formatter from the full triple into
exc_text, then replace the traceback slot of exc_info by None (the slice
of the first two components plus a None); finally send the record over the
socket with send_pyobj.  Returns the record as mutated and the payload
serialized on the socket. -/
def emit (fmt : ExcInfo → String) (r : LogRecordE) : LogRecordE × LogRecordE :=
  match r.exc_info with
  | some info =>
    let r2 : LogRecordE :=
      { r with
        exc_text := some (fmt info),
        exc_info := some { info with traceback := none } }
    (r2, r2)
  | none => (r, r)

/-- Lookup of kwargs[key] in the association-list model of a keyword
dictionary; a dictionary lookup of a key taken from the dictionary itself
always succeeds, so the default is never reached on such keys. -/
def lookupD (kwargs : List (String × String)) (k : String) : String :=
  match kwargs.lookup k with
  | some v => v
  | none => ""

/-- Embedding of fuel.utils.logging.log_keys_values, restricted to the
message string it builds: the PROCESS_TYPE(PID): STATUS prefix (or just
STATUS when no process type is given), followed by key=val pairs joined by
single spaces, iterating over sorted(kwargs), that is over the keys of the
keyword dictionary in ascending order. -/
def log_keys_values (status : String) (process_type : Option String) (pid : Nat)
    (kwargs : List (String × String)) : String :=
  let base :=
    match process_type with
    | some pt => pt ++ "(" ++ toString pid ++ "): " ++ status ++ " "
    | none => status ++ " "
  let keys := List.insertionSort (fun a b => a ≤ b) (kwargs.map Prod.fst)
  base ++ String.intercalate " " (keys.map fun k => k ++ "=" ++ lookupD kwargs k)

/-- Embedding of HasKeyValueDebugMethod.debug: delegate to log_keys_values
with the process_type attribute of the instance (None when absent) and the
DEBUG level. -/
def debugMethod (process_type : Option String) (pid : Nat) (status : String)
    (kwargs : List (String × String)) : String :=
  log_keys_values status process_type pid kwargs

/-- A concrete sink behaviour used to exercise the sink theorems: the
state counts the user-level receives, done holds after two messages, recv
returns the wire payload unchanged. -/
def sinkW : SinkSpec Nat :=
  { done := fun s => s == 2,
    recvFn := fun s m => (s + 1, m),
    processFn := fun s _ => s }

theorem ventSendAll_eq_map (l : List τ) :
    ventSendAll l = l.map VentEvent.workerSend := by
  induction l with
  | nil => rfl
  | cons b rest ih => simp [ventSendAll, ih]

theorem uninterruptibleAux_eintr_run (f : Nat → CallOutcome α) (v : α) :
    ∀ (n k fuel : Nat), (∀ i, i < n → f (k + i) = CallOutcome.zmqError EINTR) →
      f (k + n) = CallOutcome.ok v → n < fuel →
      uninterruptibleAux f k fuel = URes.returns v (k + n + 1) := by
  intro n
  induction n with
  | zero =>
      intro k fuel _ hok hfuel
      obtain ⟨fl, rfl⟩ : ∃ fl, fuel = fl + 1 := ⟨fuel - 1, by omega⟩
      simp only [Nat.add_zero] at hok
      simp [uninterruptibleAux, hok]
  | succ n ih =>
      intro k fuel hfail hok hfuel
      obtain ⟨fl, rfl⟩ : ∃ fl, fuel = fl + 1 := ⟨fuel - 1, by omega⟩
      have h0 : f k = CallOutcome.zmqError EINTR := by
        have := hfail 0 (Nat.succ_pos n)
        simpa using this
      have hrec := ih (k + 1) fl
        (fun i hi => by
          have h2 := hfail (i + 1) (by omega)
          have e : k + (i + 1) = k + 1 + i := by omega
          rwa [e] at h2)
        (by
          have e2 : k + (n + 1) = k + 1 + n := by omega
          rwa [e2] at hok)
        (by omega)
      have e3 : k + 1 + n + 1 = k + (n + 1) + 1 := by omega
      rw [e3] at hrec
      simp [uninterruptibleAux, h0, hrec, EINTR]

theorem countRaw_sinkLoop (P : SinkSpec σ) :
    ∀ (fuel : Nat) (s : σ) (msgs : List (List Nat)),
      countRaw (sinkLoop P fuel s msgs).2 = 0 := by
  intro fuel
  induction fuel with
  | zero => intro s msgs; simp [sinkLoop, countRaw]
  | succ fl ih =>
      intro s msgs
      simp only [countRaw] at ih ⊢
      cases hd : P.done s with
      | true => simp [sinkLoop, hd]
      | false =>
          cases msgs with
          | nil => simp [sinkLoop, hd]
          | cons m rest =>
              simp [sinkLoop, hd, List.countP_cons, ih]

/-- C5: the ventilator work loop sends the synchronization marker to the
sink before any work item, then sends one work item per produced batch in
production order, and completes exactly when produce is exhausted. -/
theorem ventilator_marker_then_batches (τ : Type) (produced : List τ) :
    ventilator_work_loop produced =
      VentEvent.sinkSend HELLO :: produced.map VentEvent.workerSend ∧
    (ventilator_work_loop produced).head? = some (VentEvent.sinkSend HELLO) ∧
    (ventilator_work_loop produced).length = produced.length + 1 := by
  refine ⟨?_, ?_, ?_⟩ <;>
    simp [ventilator_work_loop, ventSendAll_eq_map]

/-- C9: emit on a record with in-flight exception information caches the
formatter rendering of the full exc_info triple into exc_text, replaces
only the traceback slot of exc_info by None while keeping the exception
type and value, and the payload serialized on the socket is the record so
mutated. -/
theorem emit_caches_traceback_only (fmt : ExcInfo → String)
    (lv ety ev : Nat) (tb : Option Nat) (t : Option String) :
    (emit fmt ⟨lv, t, some ⟨ety, ev, tb⟩⟩).1.exc_text = some (fmt ⟨ety, ev, tb⟩) ∧
    (emit fmt ⟨lv, t, some ⟨ety, ev, tb⟩⟩).1.exc_info = some ⟨ety, ev, none⟩ ∧
    (emit fmt ⟨lv, t, some ⟨ety, ev, tb⟩⟩).1.levelno = lv ∧
    (emit fmt ⟨lv, t, some ⟨ety, ev, tb⟩⟩).2 = (emit fmt ⟨lv, t, some ⟨ety, ev, tb⟩⟩).1 ∧
    emit fmt ⟨lv, t, none⟩ = (⟨lv, t, none⟩, ⟨lv, t, none⟩) := by
  refine ⟨rfl, rfl, rfl, rfl, rfl⟩

/-- C4: when f fails N times in a row with a zmq error whose errno is
EINTR and then succeeds, uninterruptible calls f exactly N plus one times
and returns the successful value; when the first call fails with a zmq
error whose errno is not EINTR, or with an exception that is not a zmq
error at all, the error propagates after exactly one call. -/
theorem uninterruptible_retry_semantics {α : Type} (N : Nat) (v : α)
    (f g h : Nat → CallOutcome α) (eno e fuel : Nat)
    (hf : ∀ i, i < N → f i = CallOutcome.zmqError EINTR)
    (hfN : f N = CallOutcome.ok v)
    (hfuel : N < fuel)
    (hg : g 0 = CallOutcome.zmqError eno) (hne : eno ≠ EINTR)
    (hh : h 0 = CallOutcome.otherError e) :
    uninterruptible f fuel = URes.returns v (N + 1) ∧
    uninterruptible g fuel = URes.raisesZmq eno 1 ∧
    uninterruptible h fuel = URes.raisesOther e 1 := by
  obtain ⟨fl, rfl⟩ : ∃ fl, fuel = fl + 1 := ⟨fuel - 1, by omega⟩
  refine ⟨?_, ?_, ?_⟩
  · have := uninterruptibleAux_eintr_run f v N 0 (fl + 1)
      (fun i hi => by simpa using hf i hi) (by simpa using hfN) hfuel
    simpa [uninterruptible] using this
  · simp [uninterruptible, uninterruptibleAux, hg, hne]
  · simp [uninterruptible, uninterruptibleAux, hh]

/-- Concrete call behaviours for the uninterruptible witness. -/
def retryF : Nat → CallOutcome Nat :=
  fun i => if i < 2 then CallOutcome.zmqError EINTR else CallOutcome.ok 7

/-- Concrete call behaviour failing with a non-EINTR zmq error. -/
def failG : Nat → CallOutcome Nat := fun _ => CallOutcome.zmqError 9

/-- Concrete call behaviour failing with a non-zmq exception. -/
def failH : Nat → CallOutcome Nat := fun _ => CallOutcome.otherError 3

theorem uninterruptible_retry_semantics_witness :
    uninterruptible retryF 5 = URes.returns 7 3 ∧
    uninterruptible failG 5 = URes.raisesZmq 9 1 ∧
    uninterruptible failH 5 = URes.raisesOther 3 1 :=
  uninterruptible_retry_semantics 2 7 retryF failG failH 9 3 5
    (fun i hi => by interval_cases i <;> rfl) rfl (by omega) rfl (by decide) rfl

/-- C2: on a role whose sockets have been initialized, run performs the
SETUP debug call, the socket-readiness check, the setup hook, the START
debug call, the work loop and, exactly when none of them raised, the
finalize hook, in that order; an exception anywhere in that sequence is
handled by the single except-handler and run still returns normally; the
teardown hook runs exactly once and the context is destroyed exactly
once, on success and on failure alike. -/
theorem run_lifecycle_order_and_teardown (s w f : Bool) :
    (run ⟨true, true, s, w, f⟩).2 = RunOutcome.normal ∧
    (run ⟨true, true, s, w, f⟩).1.count RunEvent.teardownHook = 1 ∧
    (run ⟨true, true, s, w, f⟩).1.count RunEvent.contextDestroy = 1 ∧
    (RunEvent.finalizeHook ∈ (run ⟨true, true, s, w, f⟩).1 ↔ (s = false ∧ w = false)) ∧
    (RunEvent.exceptionHandled ∈ (run ⟨true, true, s, w, f⟩).1 ↔ (s || w || f) = true) ∧
    (s = false → w = false → f = false →
      (run ⟨true, true, s, w, f⟩).1 =
        [RunEvent.debugSetup, RunEvent.verifyOk, RunEvent.setupHook,
         RunEvent.debugStart, RunEvent.workLoopRun, RunEvent.finalizeHook,
         RunEvent.debugTeardown, RunEvent.teardownHook, RunEvent.debugShutdown,
         RunEvent.contextDestroy]) := by
  cases s <;> cases w <;> cases f <;> decide

theorem run_lifecycle_order_and_teardown_witness :
    (run ⟨true, true, false, false, false⟩).1 =
      [RunEvent.debugSetup, RunEvent.verifyOk, RunEvent.setupHook,
       RunEvent.debugStart, RunEvent.workLoopRun, RunEvent.finalizeHook,
       RunEvent.debugTeardown, RunEvent.teardownHook, RunEvent.debugShutdown,
       RunEvent.contextDestroy] ∧
    (run ⟨true, true, false, true, false⟩).1.count RunEvent.teardownHook = 1 ∧
    (run ⟨true, true, false, true, false⟩).2 = RunOutcome.normal :=
  ⟨(run_lifecycle_order_and_teardown false false false).2.2.2.2.2 rfl rfl rfl,
   (run_lifecycle_order_and_teardown false true false).2.1,
   (run_lifecycle_order_and_teardown false true false).1⟩

/-- C7: invoking run on a role whose sockets were never initialized makes
the socket-readiness check raise the IllegalStateError of the design (a
ValueError in the code); the check fails fast, before the setup hook or
the work loop can execute, the error is handled exactly once and is never
retried. -/
theorem run_before_sockets_ready (c s w f : Bool) :
    verify_sockets false = some illegalStateError ∧
    (runTryBody ⟨false, c, s, w, f⟩).2 = true ∧
    RunEvent.exceptionHandled ∈ (run ⟨false, c, s, w, f⟩).1 ∧
    (run ⟨false, c, s, w, f⟩).1.count RunEvent.exceptionHandled = 1 ∧
    (run ⟨false, c, s, w, f⟩).1.count RunEvent.verifyOk = 0 ∧
    (run ⟨false, c, s, w, f⟩).1.count RunEvent.setupHook = 0 ∧
    (run ⟨false, c, s, w, f⟩).1.count RunEvent.workLoopRun = 0 := by
  cases c <;> cases s <;> cases w <;> cases f <;> decide

/-- C1: the sink work loop asserts that the very first inbound message is
the synchronization marker b HELLO: any other first payload yields an
assertion failure with no call to process; whenever process is called the
trace starts with the consumption of exactly one marker; after the marker
is consumed, one result is received and processed per iteration while
done is false, and the loop stops as soon as done holds. -/
theorem sink_requires_marker_first {σ : Type} (P : SinkSpec σ) (fuel : Nat) (s : σ)
    (m : List Nat) (rest msgs : List (List Nat)) :
    (m ≠ HELLO → sink_work_loop P fuel s (m :: rest) =
       (SinkOutcome.assertionError s, [SinkEvent.recvRaw m])) ∧
    (∀ p, SinkEvent.processCall p ∈ (sink_work_loop P fuel s msgs).2 →
       (sink_work_loop P fuel s msgs).2.head? = some (SinkEvent.recvRaw HELLO) ∧
       countRaw (sink_work_loop P fuel s msgs).2 = 1) ∧
    (P.done s = true → sinkLoop P (fuel + 1) s msgs = (SinkOutcome.finished s, [])) ∧
    (P.done s = false →
       sinkLoop P (fuel + 1) s (m :: rest) =
         ((sinkLoop P fuel (P.processFn (P.recvFn s m).1 (P.recvFn s m).2) rest).1,
          SinkEvent.recvMsg m :: SinkEvent.processCall (P.recvFn s m).2 ::
            (sinkLoop P fuel (P.processFn (P.recvFn s m).1 (P.recvFn s m).2) rest).2)) := by
  refine ⟨?_, ?_, ?_, ?_⟩
  · intro hm
    simp [sink_work_loop, hm]
  · intro p hp
    cases msgs with
    | nil => simp [sink_work_loop] at hp
    | cons m1 rest1 =>
        by_cases h1 : m1 = HELLO
        · subst h1
          have he : (sink_work_loop P fuel s (HELLO :: rest1)).2
              = SinkEvent.recvRaw HELLO :: (sinkLoop P fuel s rest1).2 := by
            simp [sink_work_loop]
          rw [he]
          refine ⟨rfl, ?_⟩
          have h0 := countRaw_sinkLoop P fuel s rest1
          simp only [countRaw, List.countP_cons] at h0 ⊢
          simp [h0]
        · simp [sink_work_loop, h1] at hp
  · intro hd
    simp [sinkLoop, hd]
  · intro hd
    simp [sinkLoop, hd]

theorem sink_requires_marker_first_witness :
    sink_work_loop sinkW 3 0 [[1], [2]] =
      (SinkOutcome.assertionError 0, [SinkEvent.recvRaw [1]]) ∧
    ((sink_work_loop sinkW 3 0 [HELLO, [2]]).2.head? = some (SinkEvent.recvRaw HELLO) ∧
      countRaw (sink_work_loop sinkW 3 0 [HELLO, [2]]).2 = 1) ∧
    sinkLoop sinkW 3 2 [[5]] = (SinkOutcome.finished 2, []) ∧
    sinkLoop sinkW 3 0 [[7]] =
      ((sinkLoop sinkW 2 (sinkW.processFn (sinkW.recvFn 0 [7]).1 (sinkW.recvFn 0 [7]).2) []).1,
       SinkEvent.recvMsg [7] :: SinkEvent.processCall (sinkW.recvFn 0 [7]).2 ::
         (sinkLoop sinkW 2 (sinkW.processFn (sinkW.recvFn 0 [7]).1 (sinkW.recvFn 0 [7]).2) []).2) := by
  refine ⟨?_, ?_, ?_, ?_⟩
  · exact (sink_requires_marker_first sinkW 3 0 [1] [[2]] []).1 (by decide)
  · exact (sink_requires_marker_first sinkW 3 0 [1] [] [HELLO, [2]]).2.1 [2] (by decide)
  · exact (sink_requires_marker_first sinkW 2 2 [1] [] [[5]]).2.2.1 rfl
  · exact (sink_requires_marker_first sinkW 2 0 [7] [] []).2.2.2 rfl

theorem random_bind_int_not_bound (used : Nat → Bool) (draw : Nat → Nat)
    (lo minP maxP tries i : Nat) :
    bind_to_random_port used draw (PyVal.int lo) minP maxP i tries ∈
      [BindResult.valueErrorRaised, BindResult.einvalRaised, BindResult.zmqBindError] := by
  cases tries with
  | zero => simp [bind_to_random_port]
  | succ t =>
      cases hr : randrange minP maxP (draw i) with
      | none => simp [bind_to_random_port, hr]
      | some p => simp [bind_to_random_port, hr]

/-- C3: the address and port branches do bind the resolved endpoint and
return the stated port, but the range branch passes the range tuple
positionally into pyzmq bind_to_random_port, so the low port lands in the
addr slot, the high port in the min_port slot and the retry budget in the
max_port slot; consequently no port of the requested range is ever bound,
and on the documented kind of input (range (9000, 9050), 100 retries) the
call raises at once instead of binding. -/
theorem bind_range_argument_misalignment (used : Nat → Bool) (draw : Nat → Nat)
    (da s : String) (lo hi n retries : Nat) :
    bind_calls (AddrSpec.range lo hi) da retries =
      SockCall.randomBindCall (PyVal.int lo) hi retries 100 ∧
    bind_to_addr_port_or_range used draw (AddrSpec.range lo hi) da retries ∈
      [BindResult.valueErrorRaised, BindResult.einvalRaised, BindResult.zmqBindError] ∧
    bind_to_addr_port_or_range used draw (AddrSpec.range 9000 9050) da 100 =
      BindResult.valueErrorRaised ∧
    bind_to_addr_port_or_range used draw (AddrSpec.port n) da retries = BindResult.bound n ∧
    bind_calls (AddrSpec.port n) da retries =
      SockCall.bindCall (da ++ ":" ++ toString n) ∧
    bind_to_addr_port_or_range used draw (AddrSpec.addr s) da retries =
      (match parsePort s with
       | some q => BindResult.bound q
       | none => BindResult.valueErrorRaised) := by
  refine ⟨rfl, ?_, ?_, rfl, rfl, rfl⟩
  · exact random_bind_int_not_bound used draw lo hi retries 100 0
  · rfl

theorem monitorLoop_failure_last (threshold : Nat) (liveCond : Nat → Bool)
    (polls : Nat → PollEvent) :
    ∀ (fuel i : Nat) (handled : List LogRecordM),
      (monitorLoop threshold liveCond polls fuel i handled).1 = MonitorOutcome.subprocessFailure →
      ∃ pre rr, (monitorLoop threshold liveCond polls fuel i handled).2 = pre ++ [rr] ∧
        threshold ≤ rr.levelno := by
  intro fuel
  induction fuel with
  | zero => intro i handled h; simp [monitorLoop] at h
  | succ fl ih =>
      intro i handled h
      cases hl : liveCond i with
      | false => simp [monitorLoop, hl] at h
      | true =>
          cases hp : polls i with
          | zmqErr eno =>
              by_cases he : eno = EAGAIN
              · subst he
                have hstep : monitorLoop threshold liveCond polls (fl + 1) i handled
                    = monitorLoop threshold liveCond polls fl (i + 1) handled := by
                  simp [monitorLoop, hl, hp]
                rw [hstep] at h ⊢
                exact ih (i + 1) handled h
              · simp [monitorLoop, hl, hp, he] at h
          | msg rr =>
              by_cases hth : threshold ≤ rr.levelno
              · have hstep : monitorLoop threshold liveCond polls (fl + 1) i handled
                    = (MonitorOutcome.subprocessFailure, handled ++ [rr]) := by
                  simp [monitorLoop, hl, hp, hth]
                rw [hstep]
                exact ⟨handled, rr, rfl, hth⟩
              · have hstep : monitorLoop threshold liveCond polls (fl + 1) i handled
                    = monitorLoop threshold liveCond polls fl (i + 1) (handled ++ [rr]) := by
                  simp [monitorLoop, hl, hp, hth]
                rw [hstep] at h ⊢
                exact ih (i + 1) (handled ++ [rr]) h

/-- C6: each record the monitor receives is dispatched to the local
logger first (appended to the handled list); a record strictly below the
failure threshold continues the loop with no exception, a record at or
above the threshold raises SubprocessFailure right after local handling;
an EAGAIN poll result is a normal miss that merely continues the loop;
and whenever the loop ends in SubprocessFailure, the last record handled
is one whose severity reached the threshold. -/
theorem monitor_relay_semantics (threshold : Nat) (liveCond : Nat → Bool)
    (polls : Nat → PollEvent) (fuel i : Nat) (handled : List LogRecordM) (r : LogRecordM) :
    (liveCond i = true → polls i = PollEvent.msg r → r.levelno < threshold →
       monitorLoop threshold liveCond polls (fuel + 1) i handled =
         monitorLoop threshold liveCond polls fuel (i + 1) (handled ++ [r])) ∧
    (liveCond i = true → polls i = PollEvent.msg r → threshold ≤ r.levelno →
       monitorLoop threshold liveCond polls (fuel + 1) i handled =
         (MonitorOutcome.subprocessFailure, handled ++ [r])) ∧
    (liveCond i = true → polls i = PollEvent.zmqErr EAGAIN →
       monitorLoop threshold liveCond polls (fuel + 1) i handled =
         monitorLoop threshold liveCond polls fuel (i + 1) handled) ∧
    ((monitorLoop threshold liveCond polls fuel i handled).1 = MonitorOutcome.subprocessFailure →
       ∃ pre rr, (monitorLoop threshold liveCond polls fuel i handled).2 = pre ++ [rr] ∧
         threshold ≤ rr.levelno) := by
  refine ⟨?_, ?_, ?_, monitorLoop_failure_last threshold liveCond polls fuel i handled⟩
  · intro hl hp hlt
    simp [monitorLoop, hl, hp, Nat.not_le.mpr hlt]
  · intro hl hp hth
    simp [monitorLoop, hl, hp, hth]
  · intro hl hp
    simp [monitorLoop, hl, hp]

/-- Liveness schedule used by the monitor witness. -/
def liveW : Nat → Bool := fun _ => true

/-- Poll schedule used by the monitor witness: one empty poll, one benign
record of severity 10, then a record of severity 50. -/
def pollsW : Nat → PollEvent := fun i =>
  if i = 0 then PollEvent.zmqErr EAGAIN
  else if i = 1 then PollEvent.msg ⟨10, 0⟩
  else PollEvent.msg ⟨50, 1⟩

theorem monitor_relay_semantics_witness :
    monitorLoop 40 liveW pollsW 4 0 [] = monitorLoop 40 liveW pollsW 3 1 [] ∧
    monitorLoop 40 liveW pollsW 3 1 [] = monitorLoop 40 liveW pollsW 2 2 [⟨10, 0⟩] ∧
    monitorLoop 40 liveW pollsW 2 2 [⟨10, 0⟩] =
      (MonitorOutcome.subprocessFailure, [⟨10, 0⟩, ⟨50, 1⟩]) ∧
    (∃ pre rr, (monitorLoop 40 liveW pollsW 4 0 []).2 = pre ++ [rr] ∧ 40 ≤ rr.levelno) := by
  refine ⟨?_, ?_, ?_, ?_⟩
  · exact (monitor_relay_semantics 40 liveW pollsW 3 0 [] ⟨50, 1⟩).2.2.1 rfl rfl
  · exact (monitor_relay_semantics 40 liveW pollsW 2 1 [] ⟨10, 0⟩).1 rfl rfl (by decide)
  · exact (monitor_relay_semantics 40 liveW pollsW 1 2 [⟨10, 0⟩] ⟨50, 1⟩).2.1 rfl rfl (by decide)
  · exact (monitor_relay_semantics 40 liveW pollsW 4 0 [] ⟨50, 1⟩).2.2.2 (by decide)

theorem cleanup_targets (ps : List ProcHandle) :
    (cleanup ps).2 = (ps.filter (fun p => p.alive)).map ProcHandle.pid := by
  induction ps with
  | nil => rfl
  | cons p rest ih =>
      cases hp : p.alive <;> simp [cleanup, hp, ih, List.filter_cons]

theorem cleanup_no_alive (ps : List ProcHandle) :
    (cleanup ps).1.filter (fun p => p.alive) = [] := by
  induction ps with
  | nil => rfl
  | cons p rest ih =>
      cases hp : p.alive <;> simp [cleanup, hp, ih, terminate, List.filter_cons]

theorem cleanup_idem (ps : List ProcHandle) :
    cleanup (cleanup ps).1 = ((cleanup ps).1, []) := by
  induction ps with
  | nil => rfl
  | cons p rest ih =>
      cases hp : p.alive <;> simp [cleanup, hp, terminate, ih]

/-- C8: cleanup issues a terminate call to exactly the handles still
alive and leaves no live handle behind; it is idempotent, a second
cleanup changing no state and terminating nothing; wait joins on the sink
process and then runs cleanup unconditionally, both when the join returns
and when it raises, so no handle is left alive in either case. -/
theorem cleanup_idempotent_wait_unconditional (ps : List ProcHandle) (sinkPid : Nat) (jf : Bool) :
    (cleanup ps).2 = (ps.filter (fun p => p.alive)).map ProcHandle.pid ∧
    cleanup (cleanup ps).1 = ((cleanup ps).1, []) ∧
    (cleanup ps).1.filter (fun p => p.alive) = [] ∧
    waitManager true ps sinkPid = ((cleanup ps).1, (cleanup ps).2, true) ∧
    waitManager false ps sinkPid =
      ((cleanup (joinSink ps sinkPid)).1, (cleanup (joinSink ps sinkPid)).2, false) ∧
    (waitManager jf ps sinkPid).1.filter (fun p => p.alive) = [] := by
  refine ⟨cleanup_targets ps, cleanup_idem ps, cleanup_no_alive ps, rfl, rfl, ?_⟩
  cases jf with
  | false => exact cleanup_no_alive (joinSink ps sinkPid)
  | true => exact cleanup_no_alive ps

theorem lookup_eq_of_perm (k : String) :
    ∀ {l1 l2 : List (String × String)}, l1.Perm l2 → (l1.map Prod.fst).Nodup →
      l1.lookup k = l2.lookup k := by
  intro l1 l2 h
  induction h with
  | nil => intro _; rfl
  | cons x h ih =>
      intro hn
      obtain ⟨a, b⟩ := x
      simp only [List.map_cons, List.nodup_cons] at hn
      simp only [List.lookup]
      cases hxa : k == a with
      | false => simp only [hxa]; exact ih hn.2
      | true => simp [hxa]
  | swap x y l =>
      intro hn
      obtain ⟨a, b⟩ := x
      obtain ⟨c, d⟩ := y
      simp only [List.map_cons, List.nodup_cons, List.mem_cons] at hn
      have hca : c ≠ a := fun h2 => hn.1 (Or.inl h2)
      simp only [List.lookup]
      cases hyc : k == c with
      | false =>
          cases hxa : k == a with
          | false => simp [hyc, hxa]
          | true => simp [hyc, hxa]
      | true =>
          cases hxa : k == a with
          | false => simp [hyc, hxa]
          | true => exact absurd ((eq_of_beq hyc).symm.trans (eq_of_beq hxa)) hca
  | trans h1 h2 ih1 ih2 =>
      intro hn
      exact (ih1 hn).trans (ih2 ((h1.map Prod.fst).nodup hn))

/-- C10: the debug message is the PROCESS_TYPE(PID): STATUS prefix (or
just STATUS when no process type is given) followed by the key=value
pairs of the auxiliary fields, with the keys in ascending alphabetical
order; the message is a function of its inputs alone, so two keyword
dictionaries holding the same pairs in any order render identically; the
debug method of HasKeyValueDebugMethod delegates to log_keys_values. -/
theorem log_keys_values_sorted_format (status pt : String) (pid : Nat)
    (kwargs kwargs2 : List (String × String)) :
    (∃ keys, List.Sorted (fun a b : String => a ≤ b) keys ∧
       keys.Perm (kwargs.map Prod.fst) ∧
       log_keys_values status (some pt) pid kwargs =
         pt ++ "(" ++ toString pid ++ "): " ++ status ++ " " ++
           String.intercalate " " (keys.map fun k => k ++ "=" ++ lookupD kwargs k) ∧
       log_keys_values status none pid kwargs =
         status ++ " " ++
           String.intercalate " " (keys.map fun k => k ++ "=" ++ lookupD kwargs k)) ∧
    (kwargs.Perm kwargs2 → (kwargs.map Prod.fst).Nodup →
       log_keys_values status (some pt) pid kwargs =
         log_keys_values status (some pt) pid kwargs2) ∧
    debugMethod (some pt) pid status kwargs = log_keys_values status (some pt) pid kwargs := by
  refine ⟨?_, ?_, rfl⟩
  · exact ⟨List.insertionSort (fun a b : String => a ≤ b) (kwargs.map Prod.fst),
      List.sorted_insertionSort _ _, List.perm_insertionSort _ _, rfl, rfl⟩
  · intro hperm hnodup
    have hkeys : (kwargs.map Prod.fst).Perm (kwargs2.map Prod.fst) := hperm.map Prod.fst
    have heq : List.insertionSort (fun a b : String => a ≤ b) (kwargs.map Prod.fst)
        = List.insertionSort (fun a b : String => a ≤ b) (kwargs2.map Prod.fst) :=
      List.eq_of_perm_of_sorted
        (((List.perm_insertionSort _ _).trans hkeys).trans
          (List.perm_insertionSort _ _).symm)
        (List.sorted_insertionSort _ _) (List.sorted_insertionSort _ _)
    have hfun : (fun k => k ++ "=" ++ lookupD kwargs k)
        = (fun k => k ++ "=" ++ lookupD kwargs2 k) :=
      funext fun k => by
        simp only [lookupD, lookup_eq_of_perm k hperm hnodup]
    simp only [log_keys_values, heq, hfun]

theorem log_keys_values_sorted_format_witness :
    log_keys_values "START" (some "SINK") 42 [("b", "2"), ("a", "1")] =
      log_keys_values "START" (some "SINK") 42 [("a", "1"), ("b", "2")] ∧
    log_keys_values "START" (some "SINK") 42 [("b", "2"), ("a", "1")] =
      "SINK(42): START a=1 b=2" :=
  ⟨(log_keys_values_sorted_format "START" "SINK" 42
      [("b", "2"), ("a", "1")] [("a", "1"), ("b", "2")]).2.1
      (by decide) (by decide),
   by
    have h : List.insertionSort (fun a b : String => a ≤ b) ["b", "a"] = ["a", "b"] := by
      simp [List.insertionSort, List.orderedInsert]
      decide
    simp only [log_keys_values, List.map, Prod.fst]
    rw [h]
    rfl⟩

end FuelSpec
